import Mathlib

/-!
# go-cistercian: the glyph composer of `pkg/cistercian/cistercian.go`

A shallow embedding of the package and the properties proved about it.

Modelling conventions.
* A Go `rune` that the package stores is always a literal of `boxChars`, the
  literal `' '` or the zero rune of a fresh `make`; a rune is a Lean `Char`.
* A `[]rune` is a `List Char`.  An indexed load or store is bounds checked, as
  in Go: an index outside the slice is a run-time panic.
* A Go `string` is a Lean `String`, a `strings.Builder` the string built so far.
* A Go `int` is an `Int`; the only arithmetic on the argument is the comparison
  with `MaxCistercianNumber` and `number % 10`, Go's truncated remainder
  (`Int.tmod`), neither of which can overflow, so the theorems hold for every
  integer and in particular for every 64-bit `int`.  Slice indices are
  non-negative constants and are `Nat`.
* A call either returns or panics: `Except Panic`.  A Go result `(string, error)`
  is a pair of a string and an optional error value.

The file has four parts: the embedding of the package, the vocabulary in which
the specification speaks about an output (lines, cells, the bare stave, the
cells a digit writes, the composed grid and its rows), the package once more
with the memory that calls share made explicit, and the theorems.
-/

namespace Cistercian

/-! ## Run-time model -/

/-- A Go run-time panic: an index out of range, or an explicit `panic(msg)`. -/
inductive Panic where
  | indexOutOfRange (index len : Nat)
  | explicit (msg : String)
  deriving DecidableEq, Repr

/-- A Go `error` value, as made by `fmt.Errorf`: its message. -/
structure GoError where
  msg : String
  deriving DecidableEq, Repr

/-- The slice store `glyph[i] = v`. -/
def store (glyph : List Char) (i : Nat) (v : Char) : Except Panic (List Char) :=
  if i < glyph.length then .ok (glyph.set i v) else .error (.indexOutOfRange i glyph.length)

/-- The slice load `glyph[i]`. -/
def load (glyph : List Char) (i : Nat) : Except Panic Char :=
  match glyph.get? i with
  | some v => .ok v
  | none => .error (.indexOutOfRange i glyph.length)

/-- The allocation `make([]rune, n)`: `n` zero runes. -/
def make (n : Nat) : List Char := List.replicate n (Char.ofNat 0)

/-- The loop `for i := lo; i < lo + count; i++ { body }` over a state `σ`. -/
def forLoop {σ : Type} (body : Nat → σ → Except Panic σ) : Nat → Nat → σ → Except Panic σ
  | _, 0, s => .ok s
  | lo, count + 1, s =>
    match body lo s with
    | .ok s' => forLoop body (lo + 1) count s'
    | .error e => .error e

/-- The formatting `fmt.Errorf("number too large: %d", number)`. -/
def errorfTooLarge (number : Int) : GoError :=
  ⟨"number too large: " ++ toString number⟩

/-! ## The package -/

/-- CistercianNumberWidth is the width of a Cistercian number. -/
def CistercianNumberWidth : Nat := 9

/-- CistercianNumberHeight is the height of a Cistercian number. -/
def CistercianNumberHeight : Nat := 13

/-- MaxCistercianNumber is the maximum Cistercian number. -/
def MaxCistercianNumber : Int := 9999

/-- The array `boxChars` contains the characters used to draw the Cistercian number.
Every index into it is a constant below 17, checked where it is used. -/
def boxChars : List Char :=
  ['─', '│', '┌', '┐', '└', '┘', '├', '┤', '┬', '┴', '┼', '╱', '╲', '╴', '╵', '╶', '╷']

/-- The function `addCenterStave`. -/
def addCenterStave (glyph : List Char) : Except Panic (List Char) :=
  forLoop (fun row glyph =>
    let char := boxChars[1]
    let char := if row = 0 then boxChars[16] else char
    let char := if row = CistercianNumberHeight - 1 then boxChars[14] else char
    forLoop (fun col glyph =>
      if col = 4 then store glyph (row * CistercianNumberWidth + col) char
      else store glyph (row * CistercianNumberWidth + col) ' ') 0 CistercianNumberWidth glyph)
    0 CistercianNumberHeight glyph

/-- The function `getDigit`: the switch on the digit, one arm per case. -/
def getDigit (digit : Int) (glyph : List Char) : Except Panic (List Char) :=
  match digit with
  | 1 => do
    let offset := 4
    let glyph ← store glyph offset boxChars[2]
    forLoop (fun i glyph => store glyph (offset + i) boxChars[0]) 1 4 glyph
  | 2 => do
    let offset := 4 + CistercianNumberWidth * 4
    let glyph ← store glyph offset boxChars[6]
    forLoop (fun i glyph => store glyph (offset + i) boxChars[0]) 1 4 glyph
  | 3 => do
    let offset := 5
    let glyph ← store glyph (offset + CistercianNumberWidth) boxChars[12]
    let glyph ← store glyph (offset + CistercianNumberWidth * 2 + 1) boxChars[12]
    store glyph (offset + CistercianNumberWidth * 3 + 2) boxChars[12]
  | 4 => do
    let offset := 8
    let glyph ← store glyph (offset + CistercianNumberWidth - 1) boxChars[11]
    let glyph ← store glyph (offset + CistercianNumberWidth * 2 - 2) boxChars[11]
    store glyph (offset + CistercianNumberWidth * 3 - 3) boxChars[11]
  | 5 => do
    let offset := 4
    let glyph ← store glyph offset boxChars[2]
    let glyph ← forLoop (fun i glyph => store glyph (offset + i) boxChars[0]) 1 4 glyph
    let offset := 8
    let glyph ← store glyph (offset + CistercianNumberWidth - 1) boxChars[11]
    let glyph ← store glyph (offset + CistercianNumberWidth * 2 - 2) boxChars[11]
    store glyph (offset + CistercianNumberWidth * 3 - 3) boxChars[11]
  | 6 => do
    let offset := 8
    let glyph ← store glyph offset boxChars[16]
    let glyph ← forLoop
      (fun i glyph => store glyph (offset + CistercianNumberWidth * i) boxChars[1]) 1 3 glyph
    store glyph (offset + CistercianNumberWidth * 4) boxChars[14]
  | 7 => do
    let offset := 4
    let glyph ← store glyph offset boxChars[2]
    let glyph ← forLoop (fun i glyph => store glyph (offset + i) boxChars[0]) 1 3 glyph
    let glyph ← store glyph (offset + 4) boxChars[3]
    let offset := 8
    let glyph ← store glyph (offset + CistercianNumberWidth) boxChars[1]
    let glyph ← store glyph (offset + CistercianNumberWidth * 2) boxChars[1]
    let glyph ← store glyph (offset + CistercianNumberWidth * 3) boxChars[1]
    store glyph (offset + CistercianNumberWidth * 4) boxChars[14]
  | 8 => do
    let offset := 8
    let glyph ← store glyph offset boxChars[16]
    let glyph ← store glyph (offset + CistercianNumberWidth) boxChars[1]
    let glyph ← store glyph (offset + CistercianNumberWidth * 2) boxChars[1]
    let glyph ← store glyph (offset + CistercianNumberWidth * 3) boxChars[1]
    let offset := 4 + CistercianNumberWidth * 4
    let glyph ← store glyph offset boxChars[6]
    let glyph ← store glyph (offset + 1) boxChars[0]
    let glyph ← store glyph (offset + 2) boxChars[0]
    let glyph ← store glyph (offset + 3) boxChars[0]
    store glyph (offset + 4) boxChars[5]
  | 9 => do
    let offset := 4
    let glyph ← store glyph offset boxChars[2]
    let glyph ← store glyph (offset + 1) boxChars[0]
    let glyph ← store glyph (offset + 2) boxChars[0]
    let glyph ← store glyph (offset + 3) boxChars[0]
    let glyph ← store glyph (offset + 4) boxChars[3]
    let offset := 8
    let glyph ← store glyph (offset + CistercianNumberWidth) boxChars[1]
    let glyph ← store glyph (offset + CistercianNumberWidth * 2) boxChars[1]
    let glyph ← store glyph (offset + CistercianNumberWidth * 3) boxChars[1]
    let offset := 4 + CistercianNumberWidth * 4
    let glyph ← store glyph offset boxChars[6]
    let glyph ← store glyph (offset + 1) boxChars[0]
    let glyph ← store glyph (offset + 2) boxChars[0]
    let glyph ← store glyph (offset + 3) boxChars[0]
    store glyph (offset + 4) boxChars[5]
  | _ => .ok glyph

/-- The function `addOnesPlace`. -/
def addOnesPlace (digit : Int) (glyph : List Char) : Except Panic (List Char) :=
  getDigit digit glyph

/-- The serialisation loop of `generateCistercianNumberASCII`: the rows of the
grid written to the builder `sb`, a line break before every row but the first. -/
def writeRows (glyph : List Char) (sb : String) : Except Panic String :=
  forLoop (fun row sb => do
    let sb := if row > 0 then sb ++ "\n" else sb
    forLoop (fun col sb => do
      let r ← load glyph (row * CistercianNumberWidth + col)
      .ok (sb.push r)) 0 CistercianNumberWidth sb)
    0 CistercianNumberHeight sb

/-- The function `generateCistercianNumberASCII`. -/
def generateCistercianNumberASCII (number : Int) : Except Panic (String × Option GoError) :=
  if number > MaxCistercianNumber then
    .ok ("", some (errorfTooLarge number))
  else do
    let glyph := make (CistercianNumberHeight * CistercianNumberWidth)
    let glyph ← addCenterStave glyph
    let glyph ← addOnesPlace (number.tmod 10) glyph
    let sb ← writeRows glyph ""
    .ok (sb, none)

/-- The function `generateCistercianNumberSVG`: its body is `panic("unimplemented")`. -/
def generateCistercianNumberSVG (_number : Int) : Except Panic (String × Option GoError) :=
  .error (.explicit "unimplemented")

/-- GenerateCistercianNumber generates a Cistercian number. -/
def GenerateCistercianNumber (number : Int) (isSVG : Bool) :
    Except Panic (String × Option GoError) :=
  if isSVG then generateCistercianNumberSVG number
  else generateCistercianNumberASCII number

/-! ## Vocabulary of the specification -/

/-- The lines of an output string: the string split on the line-break character. -/
def linesOf (s : String) : List (List Char) := s.data.splitOn '\n'

/-- The character of an output string at row `r`, column `c`, if there is one. -/
def cellOf (s : String) (r c : Nat) : Option Char :=
  match (linesOf s).get? r with
  | some l => l.get? c
  | none => none

/-- The bare stave as the specification describes it: the top cap, eleven
vertical lines and the bottom cap in column 4, every other cell blank. -/
def bareStave : String :=
  "\n".intercalate (["    ╷    "] ++ List.replicate 11 "    │    " ++ ["    ╵    "])

/-- The cells `(row, column)` that `getDigit digit` writes.  Every store of
`getDigit` puts an element of `boxChars`, none of which is the zero rune, so the
written cells are those of a fresh all-zero grid that are not zero after the call
(`getDigit_frame` below: on every grid these cells get a value that does not
depend on the grid, and every other cell keeps its value). -/
def writtenCells (digit : Int) : List (Nat × Nat) :=
  match getDigit digit (make (CistercianNumberHeight * CistercianNumberWidth)) with
  | .ok g =>
    (List.product (List.range CistercianNumberHeight) (List.range CistercianNumberWidth)).filter
      (fun p => g.get? (p.1 * CistercianNumberWidth + p.2) ≠ some (Char.ofNat 0))
  | .error _ => []

/-- A sequence of stores `glyph[i] = v`, each in range, applied in order: the
form every arm of `getDigit` takes on a full grid (`getDigit_stores`). -/
def applyStores (ws : List (Nat × Char)) (g : List Char) : List Char :=
  ws.foldl (fun g w => g.set w.1 w.2) g

/-- The rune that `addCenterStave` stores at `(row, col)`: the choice of `char`
for the row and the test of the column, as in its loop body. -/
def staveCell (row col : Nat) : Char :=
  let char := boxChars[1]
  let char := if row = 0 then boxChars[16] else char
  let char := if row = CistercianNumberHeight - 1 then boxChars[14] else char
  if col = 4 then char else ' '

/-- The grid of the bare stave, row-major: cell `i` is row `i / 9`, column `i % 9`. -/
def staveGrid : List Char :=
  (List.range (CistercianNumberHeight * CistercianNumberWidth)).map
    (fun i => staveCell (i / CistercianNumberWidth) (i % CistercianNumberWidth))

/-- The grid that `generateCistercianNumberASCII` composes (the stave, then the
ones place for `number % 10`), in the buffer `glyph` that `make` handed it. -/
def composeGlyph (glyph : List Char) (number : Int) : Except Panic (List Char) := do
  let glyph ← addCenterStave glyph
  addOnesPlace (number.tmod 10) glyph

/-- The digit with which `generateCistercianNumberASCII` calls `addOnesPlace`,
when the range check lets the number through. -/
def onesDigitOf (number : Int) : Option Int :=
  if number > MaxCistercianNumber then none else some (number.tmod 10)

/-- The rows of a row-major grid: row `row` is cells `row * 9 .. row * 9 + 8`. -/
def rowsOf (glyph : List Char) : List (List Char) :=
  (List.range CistercianNumberHeight).map
    (fun row => (glyph.drop (row * CistercianNumberWidth)).take CistercianNumberWidth)

/-- A reader of the ones digit from an output string, by the cells that tell the
ten glyphs apart: the diagonals at (1,5) and (1,7), the corner at (0,4), the
symbols at (4,8) and (4,4). -/
def readOnesDigit (s : String) : Int :=
  if cellOf s 1 5 = some '╲' then 3
  else if cellOf s 1 7 = some '╱' then (if cellOf s 0 4 = some '┌' then 5 else 4)
  else if cellOf s 4 8 = some '┘' then (if cellOf s 0 4 = some '┌' then 9 else 8)
  else if cellOf s 4 8 = some '╵' then (if cellOf s 0 4 = some '┌' then 7 else 6)
  else if cellOf s 4 4 = some '├' then 2
  else if cellOf s 0 4 = some '┌' then 1
  else 0

/-! ## The package with its memory explicit

The same functions once more, with the memory they act on passed along: a
slice is the address of its backing array, a store changes the world, and
`boxChars`, a package variable, is read from the world.  What one call leaves
behind is what the next call finds. -/

/-- The memory that calls share: the package variable `boxChars` and the backing
arrays allocated so far, each at the address that is its index. -/
structure World where
  boxChars : List Char
  heap : List (List Char)

/-- The world when the package is initialised: `boxChars` holds its initialiser
and nothing is allocated. -/
def initialWorld : World := ⟨boxChars, []⟩

/-- The allocation `make([]rune, n)` in a world: a new backing array of `n` zero
runes at a new address; the slice is that address. -/
def makeAt (n : Nat) (w : World) : Nat × World :=
  (w.heap.length, ⟨w.boxChars, w.heap ++ [make n]⟩)

/-- The store `glyph[i] = v` through the slice at address `glyph`. -/
def storeAt (glyph : Nat) (i : Nat) (v : Char) (w : World) : Except Panic World :=
  match w.heap.get? glyph with
  | some buf =>
    if i < buf.length then .ok ⟨w.boxChars, w.heap.set glyph (buf.set i v)⟩
    else .error (.indexOutOfRange i buf.length)
  | none => .error (.indexOutOfRange i 0)

/-- The load `glyph[i]` through the slice at address `glyph`. -/
def loadAt (glyph : Nat) (i : Nat) (w : World) : Except Panic Char :=
  match w.heap.get? glyph with
  | some buf => load buf i
  | none => .error (.indexOutOfRange i 0)

/-- The read `boxChars[k]` of the package variable, for a constant `k` below 17. -/
def boxCharAt (k : Nat) (w : World) : Char := w.boxChars.getD k (Char.ofNat 0)

/-- The function `addCenterStave`, on the slice at address `glyph`. -/
def addCenterStaveAt (glyph : Nat) (w : World) : Except Panic World :=
  forLoop (fun row w =>
    let char := boxCharAt 1 w
    let char := if row = 0 then boxCharAt 16 w else char
    let char := if row = CistercianNumberHeight - 1 then boxCharAt 14 w else char
    forLoop (fun col w =>
      if col = 4 then storeAt glyph (row * CistercianNumberWidth + col) char w
      else storeAt glyph (row * CistercianNumberWidth + col) ' ' w) 0 CistercianNumberWidth w)
    0 CistercianNumberHeight w

/-- The function `getDigit`, on the slice at address `glyph`. -/
def getDigitAt (digit : Int) (glyph : Nat) (w : World) : Except Panic World :=
  match digit with
  | 1 => do
    let offset := 4
    let w ← storeAt glyph offset (boxCharAt 2 w) w
    forLoop (fun i w => storeAt glyph (offset + i) (boxCharAt 0 w) w) 1 4 w
  | 2 => do
    let offset := 4 + CistercianNumberWidth * 4
    let w ← storeAt glyph offset (boxCharAt 6 w) w
    forLoop (fun i w => storeAt glyph (offset + i) (boxCharAt 0 w) w) 1 4 w
  | 3 => do
    let offset := 5
    let w ← storeAt glyph (offset + CistercianNumberWidth) (boxCharAt 12 w) w
    let w ← storeAt glyph (offset + CistercianNumberWidth * 2 + 1) (boxCharAt 12 w) w
    storeAt glyph (offset + CistercianNumberWidth * 3 + 2) (boxCharAt 12 w) w
  | 4 => do
    let offset := 8
    let w ← storeAt glyph (offset + CistercianNumberWidth - 1) (boxCharAt 11 w) w
    let w ← storeAt glyph (offset + CistercianNumberWidth * 2 - 2) (boxCharAt 11 w) w
    storeAt glyph (offset + CistercianNumberWidth * 3 - 3) (boxCharAt 11 w) w
  | 5 => do
    let offset := 4
    let w ← storeAt glyph offset (boxCharAt 2 w) w
    let w ← forLoop (fun i w => storeAt glyph (offset + i) (boxCharAt 0 w) w) 1 4 w
    let offset := 8
    let w ← storeAt glyph (offset + CistercianNumberWidth - 1) (boxCharAt 11 w) w
    let w ← storeAt glyph (offset + CistercianNumberWidth * 2 - 2) (boxCharAt 11 w) w
    storeAt glyph (offset + CistercianNumberWidth * 3 - 3) (boxCharAt 11 w) w
  | 6 => do
    let offset := 8
    let w ← storeAt glyph offset (boxCharAt 16 w) w
    let w ← forLoop
      (fun i w => storeAt glyph (offset + CistercianNumberWidth * i) (boxCharAt 1 w) w) 1 3 w
    storeAt glyph (offset + CistercianNumberWidth * 4) (boxCharAt 14 w) w
  | 7 => do
    let offset := 4
    let w ← storeAt glyph offset (boxCharAt 2 w) w
    let w ← forLoop (fun i w => storeAt glyph (offset + i) (boxCharAt 0 w) w) 1 3 w
    let w ← storeAt glyph (offset + 4) (boxCharAt 3 w) w
    let offset := 8
    let w ← storeAt glyph (offset + CistercianNumberWidth) (boxCharAt 1 w) w
    let w ← storeAt glyph (offset + CistercianNumberWidth * 2) (boxCharAt 1 w) w
    let w ← storeAt glyph (offset + CistercianNumberWidth * 3) (boxCharAt 1 w) w
    storeAt glyph (offset + CistercianNumberWidth * 4) (boxCharAt 14 w) w
  | 8 => do
    let offset := 8
    let w ← storeAt glyph offset (boxCharAt 16 w) w
    let w ← storeAt glyph (offset + CistercianNumberWidth) (boxCharAt 1 w) w
    let w ← storeAt glyph (offset + CistercianNumberWidth * 2) (boxCharAt 1 w) w
    let w ← storeAt glyph (offset + CistercianNumberWidth * 3) (boxCharAt 1 w) w
    let offset := 4 + CistercianNumberWidth * 4
    let w ← storeAt glyph offset (boxCharAt 6 w) w
    let w ← storeAt glyph (offset + 1) (boxCharAt 0 w) w
    let w ← storeAt glyph (offset + 2) (boxCharAt 0 w) w
    let w ← storeAt glyph (offset + 3) (boxCharAt 0 w) w
    storeAt glyph (offset + 4) (boxCharAt 5 w) w
  | 9 => do
    let offset := 4
    let w ← storeAt glyph offset (boxCharAt 2 w) w
    let w ← storeAt glyph (offset + 1) (boxCharAt 0 w) w
    let w ← storeAt glyph (offset + 2) (boxCharAt 0 w) w
    let w ← storeAt glyph (offset + 3) (boxCharAt 0 w) w
    let w ← storeAt glyph (offset + 4) (boxCharAt 3 w) w
    let offset := 8
    let w ← storeAt glyph (offset + CistercianNumberWidth) (boxCharAt 1 w) w
    let w ← storeAt glyph (offset + CistercianNumberWidth * 2) (boxCharAt 1 w) w
    let w ← storeAt glyph (offset + CistercianNumberWidth * 3) (boxCharAt 1 w) w
    let offset := 4 + CistercianNumberWidth * 4
    let w ← storeAt glyph offset (boxCharAt 6 w) w
    let w ← storeAt glyph (offset + 1) (boxCharAt 0 w) w
    let w ← storeAt glyph (offset + 2) (boxCharAt 0 w) w
    let w ← storeAt glyph (offset + 3) (boxCharAt 0 w) w
    storeAt glyph (offset + 4) (boxCharAt 5 w) w
  | _ => .ok w

/-- The function `addOnesPlace`, on the slice at address `glyph`. -/
def addOnesPlaceAt (digit : Int) (glyph : Nat) (w : World) : Except Panic World :=
  getDigitAt digit glyph w

/-- The serialisation loop of `generateCistercianNumberASCII`, reading the slice
at address `glyph`; the builder `sb` is local to the call. -/
def writeRowsAt (glyph : Nat) (sb : String) (w : World) : Except Panic String :=
  forLoop (fun row sb => do
    let sb := if row > 0 then sb ++ "\n" else sb
    forLoop (fun col sb => do
      let r ← loadAt glyph (row * CistercianNumberWidth + col) w
      .ok (sb.push r)) 0 CistercianNumberWidth sb)
    0 CistercianNumberHeight sb

/-- The function `generateCistercianNumberASCII` in a world: its results and the
world it leaves. -/
def generateCistercianNumberASCIIAt (number : Int) (w : World) :
    Except Panic ((String × Option GoError) × World) :=
  if number > MaxCistercianNumber then
    .ok (("", some (errorfTooLarge number)), w)
  else do
    let (glyph, w) := makeAt (CistercianNumberHeight * CistercianNumberWidth) w
    let w ← addCenterStaveAt glyph w
    let w ← addOnesPlaceAt (number.tmod 10) glyph w
    let sb ← writeRowsAt glyph "" w
    .ok ((sb, none), w)

/-- The function `generateCistercianNumberSVG` in a world: it panics. -/
def generateCistercianNumberSVGAt (_number : Int) (_w : World) :
    Except Panic ((String × Option GoError) × World) :=
  .error (.explicit "unimplemented")

/-- The function `GenerateCistercianNumber` in a world. -/
def GenerateCistercianNumberAt (number : Int) (isSVG : Bool) (w : World) :
    Except Panic ((String × Option GoError) × World) :=
  if isSVG then generateCistercianNumberSVGAt number w
  else generateCistercianNumberASCIIAt number w

/-! ## The rendering of each digit

The ten outputs, each obtained by evaluating the embedding. -/

set_option maxRecDepth 100000

theorem render_0 : GenerateCistercianNumber 0 false = .ok (bareStave, none) := by
  rfl

theorem render_1 : GenerateCistercianNumber 1 false = .ok ("\n".intercalate
      ["    ┌────",
       "    │    ",
       "    │    ",
       "    │    ",
       "    │    ",
       "    │    ",
       "    │    ",
       "    │    ",
       "    │    ",
       "    │    ",
       "    │    ",
       "    │    ",
       "    ╵    "], none) := by
  rfl

theorem render_2 : GenerateCistercianNumber 2 false = .ok ("\n".intercalate
      ["    ╷    ",
       "    │    ",
       "    │    ",
       "    │    ",
       "    ├────",
       "    │    ",
       "    │    ",
       "    │    ",
       "    │    ",
       "    │    ",
       "    │    ",
       "    │    ",
       "    ╵    "], none) := by
  rfl

theorem render_3 : GenerateCistercianNumber 3 false = .ok ("\n".intercalate
      ["    ╷    ",
       "    │╲   ",
       "    │ ╲  ",
       "    │  ╲ ",
       "    │    ",
       "    │    ",
       "    │    ",
       "    │    ",
       "    │    ",
       "    │    ",
       "    │    ",
       "    │    ",
       "    ╵    "], none) := by
  rfl

theorem render_4 : GenerateCistercianNumber 4 false = .ok ("\n".intercalate
      ["    ╷    ",
       "    │  ╱ ",
       "    │ ╱  ",
       "    │╱   ",
       "    │    ",
       "    │    ",
       "    │    ",
       "    │    ",
       "    │    ",
       "    │    ",
       "    │    ",
       "    │    ",
       "    ╵    "], none) := by
  rfl

theorem render_5 : GenerateCistercianNumber 5 false = .ok ("\n".intercalate
      ["    ┌────",
       "    │  ╱ ",
       "    │ ╱  ",
       "    │╱   ",
       "    │    ",
       "    │    ",
       "    │    ",
       "    │    ",
       "    │    ",
       "    │    ",
       "    │    ",
       "    │    ",
       "    ╵    "], none) := by
  rfl

theorem render_6 : GenerateCistercianNumber 6 false = .ok ("\n".intercalate
      ["    ╷   ╷",
       "    │   │",
       "    │   │",
       "    │   │",
       "    │   ╵",
       "    │    ",
       "    │    ",
       "    │    ",
       "    │    ",
       "    │    ",
       "    │    ",
       "    │    ",
       "    ╵    "], none) := by
  rfl

theorem render_7 : GenerateCistercianNumber 7 false = .ok ("\n".intercalate
      ["    ┌───┐",
       "    │   │",
       "    │   │",
       "    │   │",
       "    │   ╵",
       "    │    ",
       "    │    ",
       "    │    ",
       "    │    ",
       "    │    ",
       "    │    ",
       "    │    ",
       "    ╵    "], none) := by
  rfl

theorem render_8 : GenerateCistercianNumber 8 false = .ok ("\n".intercalate
      ["    ╷   ╷",
       "    │   │",
       "    │   │",
       "    │   │",
       "    ├───┘",
       "    │    ",
       "    │    ",
       "    │    ",
       "    │    ",
       "    │    ",
       "    │    ",
       "    │    ",
       "    ╵    "], none) := by
  rfl

theorem render_9 : GenerateCistercianNumber 9 false = .ok ("\n".intercalate
      ["    ┌───┐",
       "    │   │",
       "    │   │",
       "    │   │",
       "    ├───┘",
       "    │    ",
       "    │    ",
       "    │    ",
       "    │    ",
       "    │    ",
       "    │    ",
       "    │    ",
       "    ╵    "], none) := by
  rfl

/-! ## The ones digit

Go's remainder truncates toward zero, and the switch of `getDigit` has no arm
for a digit outside `1..9`. -/

theorem tmod_ten_of_nonneg (n : Int) (h : 0 ≤ n) : n.tmod 10 = n % 10 :=
  Int.tmod_eq_emod h (by decide)

theorem tmod_ten_of_neg (n : Int) (h : n < 0) : -9 ≤ n.tmod 10 ∧ n.tmod 10 ≤ 0 := by
  cases n with
  | ofNat k => exact absurd h (by simp)
  | negSucc k =>
    have e : (Int.negSucc k).tmod 10 = -(((k + 1) % 10 : Nat) : Int) := rfl
    rw [e]
    omega

theorem getDigit_default (d : Int) (g : List Char) (h : d ≤ 0 ∨ 10 ≤ d) :
    getDigit d g = .ok g := by
  unfold getDigit
  split <;> first | omega | rfl

/-- Below the maximum, the outcome depends on the number only through what
`getDigit` does for its remainder. -/
theorem ascii_congr (n m : Int) (hn : n ≤ 9999) (hm : m ≤ 9999)
    (h : getDigit (n.tmod 10) = getDigit (m.tmod 10)) :
    GenerateCistercianNumber n false = GenerateCistercianNumber m false := by
  have hn' : ¬ n > MaxCistercianNumber := by simp [MaxCistercianNumber]; omega
  have hm' : ¬ m > MaxCistercianNumber := by simp [MaxCistercianNumber]; omega
  simp only [GenerateCistercianNumber, generateCistercianNumberASCII, addOnesPlace, hn', hm', h,
    if_false, Bool.false_eq_true]

theorem ascii_ones (n : Int) (h0 : 0 ≤ n) (h1 : n ≤ 9999) :
    GenerateCistercianNumber n false = GenerateCistercianNumber (n % 10) false := by
  have hm : 0 ≤ n % 10 ∧ n % 10 < 10 := by omega
  apply ascii_congr n (n % 10) h1 (by omega)
  have hmm : n % 10 % 10 = n % 10 := by omega
  rw [tmod_ten_of_nonneg n h0, tmod_ten_of_nonneg (n % 10) hm.1, hmm]

theorem ascii_negative (n : Int) (h : n < 0) :
    GenerateCistercianNumber n false = GenerateCistercianNumber 0 false := by
  apply ascii_congr n 0 (by omega) (by decide)
  funext g
  rw [getDigit_default _ g (Or.inl (tmod_ten_of_neg n h).2), getDigit_default _ g (Or.inl (by decide))]

/-- Every single digit renders, as 13 lines of 9 characters. -/
theorem render_digit (d : Int) (h0 : 0 ≤ d) (h9 : d ≤ 9) :
    ∃ s, GenerateCistercianNumber d false = .ok (s, none) ∧
      (linesOf s).length = 13 ∧ ∀ l ∈ linesOf s, l.length = 9 := by
  interval_cases d
  · exact ⟨_, render_0, by decide, by decide⟩
  · exact ⟨_, render_1, by decide, by decide⟩
  · exact ⟨_, render_2, by decide, by decide⟩
  · exact ⟨_, render_3, by decide, by decide⟩
  · exact ⟨_, render_4, by decide, by decide⟩
  · exact ⟨_, render_5, by decide, by decide⟩
  · exact ⟨_, render_6, by decide, by decide⟩
  · exact ⟨_, render_7, by decide, by decide⟩
  · exact ⟨_, render_8, by decide, by decide⟩
  · exact ⟨_, render_9, by decide, by decide⟩

/-! ## The stores of `getDigit` -/

theorem applyStores_length (ws : List (Nat × Char)) (g : List Char) :
    (applyStores ws g).length = g.length := by
  induction ws generalizing g with
  | nil => rfl
  | cons w ws ih => simp [applyStores, List.foldl_cons] at ih ⊢; rw [ih]; simp

/-- A cell that no store addresses keeps its value. -/
theorem applyStores_get_of_not_hit (ws : List (Nat × Char)) (g : List Char) (i : Nat)
    (h : ∀ w ∈ ws, w.1 ≠ i) : (applyStores ws g).get? i = g.get? i := by
  induction ws generalizing g with
  | nil => rfl
  | cons w ws ih =>
    have hw : w.1 ≠ i := h w (List.mem_cons_self _ _)
    have := ih (g.set w.1 w.2) (fun w' hw' => h w' (List.mem_cons_of_mem _ hw'))
    simp only [applyStores, List.foldl_cons] at this ⊢
    rw [this]
    simp [List.getElem?_set, hw]

/-- A cell that some store addresses gets a stored value, the same on every grid. -/
theorem applyStores_get_of_hit (ws : List (Nat × Char)) (g : List Char) (i : Nat)
    (hi : i < g.length) (h : ∃ w ∈ ws, w.1 = i) :
    ∃ w ∈ ws, w.1 = i ∧ ∀ g2 : List Char, g2.length = g.length →
      (applyStores ws g2).get? i = some w.2 := by
  induction ws generalizing g with
  | nil => simp at h
  | cons w ws ih =>
    by_cases hlater : ∃ w' ∈ ws, w'.1 = i
    · obtain ⟨w', hw', e, hall⟩ := ih (g.set w.1 w.2) (by simpa using hi) hlater
      refine ⟨w', List.mem_cons_of_mem _ hw', e, fun g2 h2 => ?_⟩
      have := hall (g2.set w.1 w.2) (by simp [h2])
      simpa [applyStores, List.foldl_cons] using this
    · have hw : w.1 = i := by
        obtain ⟨w', hw', e⟩ := h
        rcases List.mem_cons.mp hw' with rfl | hmem
        · exact e
        · exact absurd ⟨w', hmem, e⟩ hlater
      refine ⟨w, List.mem_cons_self _ _, hw, fun g2 h2 => ?_⟩
      have hnot : ∀ w' ∈ ws, w'.1 ≠ i := fun w' hw' e => hlater ⟨w', hw', e⟩
      have := applyStores_get_of_not_hit ws (g2.set w.1 w.2) i hnot
      simp only [applyStores, List.foldl_cons] at this ⊢
      rw [this]
      simp [List.getElem?_set, hw, h2, hi]

/-- On a full grid `getDigit` is a fixed sequence of in-range stores of non-zero
runes: the stores of the arm of the digit, in the order of the source. -/
theorem getDigit_stores (d : Int) :
    ∃ ws : List (Nat × Char), (∀ w ∈ ws, w.2 ≠ Char.ofNat 0) ∧
      ∀ g : List Char, g.length = CistercianNumberHeight * CistercianNumberWidth →
        getDigit d g = .ok (applyStores ws g) := by
  have key : ∀ (ws : List (Nat × Char)) (f : List Char → Except Panic (List Char)),
      (∀ w ∈ ws, w.2 ≠ Char.ofNat 0) →
      (∀ g : List Char, g.length = 117 → f g = .ok (applyStores ws g)) →
      ∃ ws : List (Nat × Char), (∀ w ∈ ws, w.2 ≠ Char.ofNat 0) ∧
        ∀ g : List Char, g.length = CistercianNumberHeight * CistercianNumberWidth →
          f g = .ok (applyStores ws g) :=
    fun ws _ h1 h2 => ⟨ws, h1, fun g hg => h2 g hg⟩
  unfold getDigit
  split
  · refine key
      [(4, boxChars[2]), (5, boxChars[0]), (6, boxChars[0]), (7, boxChars[0]), (8, boxChars[0])]
      _ (by decide) (fun g hg => ?_)
    simp [forLoop, store, hg, List.length_set, bind, Except.bind, CistercianNumberWidth,
      applyStores]
  · refine key
      [(40, boxChars[6]), (41, boxChars[0]), (42, boxChars[0]), (43, boxChars[0]), (44, boxChars[0])]
      _ (by decide) (fun g hg => ?_)
    simp [forLoop, store, hg, List.length_set, bind, Except.bind, CistercianNumberWidth,
      applyStores]
  · refine key
      [(14, boxChars[12]), (24, boxChars[12]), (34, boxChars[12])]
      _ (by decide) (fun g hg => ?_)
    simp [forLoop, store, hg, List.length_set, bind, Except.bind, CistercianNumberWidth,
      applyStores]
  · refine key
      [(16, boxChars[11]), (24, boxChars[11]), (32, boxChars[11])]
      _ (by decide) (fun g hg => ?_)
    simp [forLoop, store, hg, List.length_set, bind, Except.bind, CistercianNumberWidth,
      applyStores]
  · refine key
      [(4, boxChars[2]), (5, boxChars[0]), (6, boxChars[0]), (7, boxChars[0]), (8, boxChars[0]), (16, boxChars[11]), (24, boxChars[11]), (32, boxChars[11])]
      _ (by decide) (fun g hg => ?_)
    simp [forLoop, store, hg, List.length_set, bind, Except.bind, CistercianNumberWidth,
      applyStores]
  · refine key
      [(8, boxChars[16]), (17, boxChars[1]), (26, boxChars[1]), (35, boxChars[1]), (44, boxChars[14])]
      _ (by decide) (fun g hg => ?_)
    simp [forLoop, store, hg, List.length_set, bind, Except.bind, CistercianNumberWidth,
      applyStores]
  · refine key
      [(4, boxChars[2]), (5, boxChars[0]), (6, boxChars[0]), (7, boxChars[0]), (8, boxChars[3]), (17, boxChars[1]), (26, boxChars[1]), (35, boxChars[1]), (44, boxChars[14])]
      _ (by decide) (fun g hg => ?_)
    simp [forLoop, store, hg, List.length_set, bind, Except.bind, CistercianNumberWidth,
      applyStores]
  · refine key
      [(8, boxChars[16]), (17, boxChars[1]), (26, boxChars[1]), (35, boxChars[1]), (40, boxChars[6]), (41, boxChars[0]), (42, boxChars[0]), (43, boxChars[0]), (44, boxChars[5])]
      _ (by decide) (fun g hg => ?_)
    simp [forLoop, store, hg, List.length_set, bind, Except.bind, CistercianNumberWidth,
      applyStores]
  · refine key
      [(4, boxChars[2]), (5, boxChars[0]), (6, boxChars[0]), (7, boxChars[0]), (8, boxChars[3]), (17, boxChars[1]), (26, boxChars[1]), (35, boxChars[1]), (40, boxChars[6]), (41, boxChars[0]), (42, boxChars[0]), (43, boxChars[0]), (44, boxChars[5])]
      _ (by decide) (fun g hg => ?_)
    simp [forLoop, store, hg, List.length_set, bind, Except.bind, CistercianNumberWidth,
      applyStores]
  · exact key [] _ (by decide) (fun g _ => rfl)

/-- The frame of `getDigit`: on every full grid the call succeeds; a cell of
`writtenCells` gets the value it gets on the all-zero grid, whatever the grid
held, and every other cell keeps its value. -/
theorem getDigit_frame (d : Int) (g : List Char)
    (hg : g.length = CistercianNumberHeight * CistercianNumberWidth) :
    ∃ g' z, getDigit d g = .ok g' ∧
      getDigit d (make (CistercianNumberHeight * CistercianNumberWidth)) = .ok z ∧
      g'.length = g.length ∧
      ∀ r, r < CistercianNumberHeight → ∀ c, c < CistercianNumberWidth →
        g'.get? (r * CistercianNumberWidth + c) =
          if (r, c) ∈ writtenCells d then z.get? (r * CistercianNumberWidth + c)
          else g.get? (r * CistercianNumberWidth + c) := by
  obtain ⟨ws, hnz, hall⟩ := getDigit_stores d
  have hzl : (make (CistercianNumberHeight * CistercianNumberWidth)).length =
      CistercianNumberHeight * CistercianNumberWidth := by simp [make]
  have hz := hall _ hzl
  refine ⟨_, _, hall g hg, hz, applyStores_length ws g, ?_⟩
  intro r hr c hc
  have hi : r * CistercianNumberWidth + c < 117 := by
    simp only [CistercianNumberHeight, CistercianNumberWidth] at hr hc ⊢
    omega
  have hig : r * CistercianNumberWidth + c < g.length := by rw [hg]; exact hi
  have hmem : (r, c) ∈ writtenCells d ↔
      (applyStores ws (make (CistercianNumberHeight * CistercianNumberWidth))).get?
        (r * CistercianNumberWidth + c) ≠ some (Char.ofNat 0) := by
    simp only [writtenCells, hz]
    simp [List.mem_filter, List.pair_mem_product, hr, hc]
  by_cases hit : ∃ w ∈ ws, w.1 = r * CistercianNumberWidth + c
  · obtain ⟨w, hw, _, hsame⟩ := applyStores_get_of_hit ws g _ hig hit
    have h1 := hsame g rfl
    have h2 := hsame _ (hzl.trans hg.symm)
    have hin : (r, c) ∈ writtenCells d :=
      hmem.mpr (by rw [h2]; intro h; exact hnz w hw (Option.some.inj h))
    rw [if_pos hin, h1, h2]
  · have hnot : ∀ w ∈ ws, w.1 ≠ r * CistercianNumberWidth + c :=
      fun w hw e => hit ⟨w, hw, e⟩
    have h1 := applyStores_get_of_not_hit ws g _ hnot
    have h2 := applyStores_get_of_not_hit ws
      (make (CistercianNumberHeight * CistercianNumberWidth)) _ hnot
    have hzero : (make (CistercianNumberHeight * CistercianNumberWidth)).get?
        (r * CistercianNumberWidth + c) = some (Char.ofNat 0) := by
      simp [make, List.getElem?_replicate, CistercianNumberHeight]
      exact hi
    have hout : (r, c) ∉ writtenCells d := by
      rw [hmem, h2, hzero]
      exact fun h => h rfl
    rw [if_neg hout, h1]

/-! ## Composite digits -/

/-- On a full grid, digit 5 is digit 1 then digit 4, and digit 4 then digit 1. -/
theorem getDigit_five (g : List Char)
    (hg : g.length = CistercianNumberHeight * CistercianNumberWidth) :
    ∃ g5, getDigit 5 g = .ok g5 ∧ (getDigit 1 g >>= getDigit 4) = .ok g5 ∧
      (getDigit 4 g >>= getDigit 1) = .ok g5 := by
  have hg' : g.length = 117 := hg
  simp [getDigit, forLoop, store, hg', List.length_set, bind, Except.bind, CistercianNumberWidth]
  apply List.ext_getElem?
  intro i
  by_cases h : i = 4 ∨ i = 5 ∨ i = 6 ∨ i = 7 ∨ i = 8 ∨ i = 16 ∨ i = 24 ∨ i = 32
  · rcases h with h | h | h | h | h | h | h | h <;> subst h <;>
      simp [List.getElem?_set, hg']
  · simp only [not_or] at h
    obtain ⟨h1, h2, h3, h4, h5, h6, h7, h8⟩ := h
    simp [List.getElem?_set, Ne.symm h1, Ne.symm h2, Ne.symm h3, Ne.symm h4, Ne.symm h5,
      Ne.symm h6, Ne.symm h7, Ne.symm h8]

/-! ## The claims -/

/-- C1: for every integer `n` with `0 ≤ n ≤ 9999`, `GenerateCistercianNumber(n, false)`
returns (no panic, in particular no index out of range) with a nil error, and the
returned string, split on the line break, is exactly 13 lines of exactly 9
characters each. -/
theorem C1_ascii_succeeds_13_lines_of_9 (n : Int) (h0 : 0 ≤ n) (h1 : n ≤ 9999) :
    ∃ s, GenerateCistercianNumber n false = .ok (s, none) ∧
      (linesOf s).length = 13 ∧ ∀ l ∈ linesOf s, l.length = 9 := by
  rw [ascii_ones n h0 h1]
  exact render_digit (n % 10) (by omega) (by omega)

theorem C1_ascii_succeeds_13_lines_of_9_witness :
    (0 : Int) ≤ 1234 ∧ (1234 : Int) ≤ 9999 ∧
      ∃ s, GenerateCistercianNumber 1234 false = .ok (s, none) ∧
        (linesOf s).length = 13 ∧ ∀ l ∈ linesOf s, l.length = 9 :=
  ⟨by decide, by decide, C1_ascii_succeeds_13_lines_of_9 1234 (by decide) (by decide)⟩

/-- C2: for every integer `n > 9999`, `GenerateCistercianNumber(n, false)` returns
the empty string together with the error `number too large: n`; no grid is built. -/
theorem C2_ascii_rejects_above_max (n : Int) (h : 9999 < n) :
    GenerateCistercianNumber n false = .ok ("", some (errorfTooLarge n)) := by
  have h' : n > MaxCistercianNumber := h
  simp [GenerateCistercianNumber, generateCistercianNumberASCII, h']

theorem C2_ascii_rejects_above_max_witness :
    (9999 : Int) < 10000 ∧
      GenerateCistercianNumber 10000 false = .ok ("", some (errorfTooLarge 10000)) :=
  ⟨by decide, C2_ascii_rejects_above_max 10000 (by decide)⟩

/-- C3: `GenerateCistercianNumber(0, false)` returns, with a nil error, the bare
stave: row 0 is four spaces, the top cap, four spaces; rows 1 to 11 are four
spaces, the vertical line, four spaces; row 12 is four spaces, the bottom cap,
four spaces; every cell outside column 4 is a space. -/
theorem C3_zero_is_bare_stave :
    ∃ s, GenerateCistercianNumber 0 false = .ok (s, none) ∧
      linesOf s =
        [' ', ' ', ' ', ' ', '╷', ' ', ' ', ' ', ' '] ::
          (List.replicate 11 [' ', ' ', ' ', ' ', '│', ' ', ' ', ' ', ' '] ++
            [[' ', ' ', ' ', ' ', '╵', ' ', ' ', ' ', ' ']]) ∧
      (∀ r, r < 13 → ∀ c, c < 9 → c ≠ 4 → cellOf s r c = some ' ') ∧
      s = bareStave :=
  ⟨_, render_0, by decide, by decide, rfl⟩

/-- C4: for every integer `n`, in range or not, `GenerateCistercianNumber(n, true)`
fails as unimplemented (the panic of `generateCistercianNumberSVG`) and returns
nothing, neither a string nor the out-of-range error: the SVG test comes first. -/
theorem C4_svg_always_unimplemented (n : Int) :
    GenerateCistercianNumber n true = .error (.explicit "unimplemented") ∧
      ∀ s e, GenerateCistercianNumber n true ≠ .ok (s, e) := by
  constructor
  · rfl
  · intro s e h
    simp [GenerateCistercianNumber, generateCistercianNumberSVG] at h

/-- C5: only the ones place is composed: for every integer `n` with
`0 ≤ n ≤ 9999`, `GenerateCistercianNumber(n, false)` and
`GenerateCistercianNumber(n mod 10, false)` return the same string, with a nil
error. -/
theorem C5_only_ones_place (n : Int) (h0 : 0 ≤ n) (h1 : n ≤ 9999) :
    ∃ s, GenerateCistercianNumber n false = .ok (s, none) ∧
      GenerateCistercianNumber (n % 10) false = .ok (s, none) := by
  obtain ⟨s, hs, _⟩ := render_digit (n % 10) (by omega) (by omega)
  exact ⟨s, by rw [ascii_ones n h0 h1]; exact hs, hs⟩

theorem C5_only_ones_place_witness :
    ((0 : Int) ≤ 1234 ∧ (1234 : Int) ≤ 9999 ∧ (1234 : Int) % 10 = 4 ∧
      ∃ s, GenerateCistercianNumber 1234 false = .ok (s, none) ∧
        GenerateCistercianNumber (1234 % 10) false = .ok (s, none)) ∧
    ((0 : Int) ≤ 10 ∧ (10 : Int) ≤ 9999 ∧ (10 : Int) % 10 = 0 ∧
      ∃ s, GenerateCistercianNumber 10 false = .ok (s, none) ∧
        GenerateCistercianNumber (10 % 10) false = .ok (s, none)) :=
  ⟨⟨by decide, by decide, by decide, C5_only_ones_place 1234 (by decide) (by decide)⟩,
    ⟨by decide, by decide, by decide, C5_only_ones_place 10 (by decide) (by decide)⟩⟩

/-- C6: a negative input is not rejected and renders like 0: for every integer
`n < 0`, `GenerateCistercianNumber(n, false)` returns the bare stave with a nil
error, which is what `GenerateCistercianNumber(0, false)` returns.  The truncated
remainder `n % 10` lies in `-9..0` and `getDigit` leaves every grid as it is
for it. -/
theorem C6_negative_renders_bare_stave (n : Int) (h : n < 0) :
    GenerateCistercianNumber n false = .ok (bareStave, none) ∧
      GenerateCistercianNumber 0 false = .ok (bareStave, none) ∧
      (-9 ≤ n.tmod 10 ∧ n.tmod 10 ≤ 0) ∧
      ∀ g, getDigit (n.tmod 10) g = .ok g :=
  ⟨by rw [ascii_negative n h]; exact render_0, render_0, tmod_ten_of_neg n h,
    fun g => getDigit_default _ g (Or.inl (tmod_ten_of_neg n h).2)⟩

theorem C6_negative_renders_bare_stave_witness :
    (-3 : Int) < 0 ∧ (-3 : Int).tmod 10 = -3 ∧
      (GenerateCistercianNumber (-3) false = .ok (bareStave, none) ∧
        GenerateCistercianNumber 0 false = .ok (bareStave, none) ∧
        (-9 ≤ (-3 : Int).tmod 10 ∧ (-3 : Int).tmod 10 ≤ 0) ∧
        ∀ g, getDigit ((-3 : Int).tmod 10) g = .ok g) :=
  ⟨by decide, by decide, C6_negative_renders_bare_stave (-3) (by decide)⟩

/-- C7: digit 5 is exactly digit 1's pattern together with digit 4's: for every
grid `g` of 117 cells, `getDigit(5, g)` succeeds and equals `getDigit(4, getDigit(1, g))`
and `getDigit(1, getDigit(4, g))`; and the cells in which the rendering of 5
differs from the bare stave are exactly those in which the rendering of 1 or the
rendering of 4 does. -/
theorem C7_digit5_is_digit1_with_digit4 (g : List Char)
    (hg : g.length = CistercianNumberHeight * CistercianNumberWidth) :
    (∃ g5, getDigit 5 g = .ok g5 ∧ (getDigit 1 g >>= getDigit 4) = .ok g5 ∧
      (getDigit 4 g >>= getDigit 1) = .ok g5) ∧
    ∃ s5 s1 s4, GenerateCistercianNumber 5 false = .ok (s5, none) ∧
      GenerateCistercianNumber 1 false = .ok (s1, none) ∧
      GenerateCistercianNumber 4 false = .ok (s4, none) ∧
      ∀ r, r < 13 → ∀ c, c < 9 →
        (cellOf s5 r c ≠ cellOf bareStave r c ↔
          cellOf s1 r c ≠ cellOf bareStave r c ∨ cellOf s4 r c ≠ cellOf bareStave r c) :=
  ⟨getDigit_five g hg, _, _, _, render_5, render_1, render_4, by decide⟩

theorem C7_digit5_is_digit1_with_digit4_witness :
    (make 117).length = CistercianNumberHeight * CistercianNumberWidth ∧
    ((∃ g5, getDigit 5 (make 117) = .ok g5 ∧ (getDigit 1 (make 117) >>= getDigit 4) = .ok g5 ∧
      (getDigit 4 (make 117) >>= getDigit 1) = .ok g5) ∧
    ∃ s5 s1 s4, GenerateCistercianNumber 5 false = .ok (s5, none) ∧
      GenerateCistercianNumber 1 false = .ok (s1, none) ∧
      GenerateCistercianNumber 4 false = .ok (s4, none) ∧
      ∀ r, r < 13 → ∀ c, c < 9 →
        (cellOf s5 r c ≠ cellOf bareStave r c ↔
          cellOf s1 r c ≠ cellOf bareStave r c ∨ cellOf s4 r c ≠ cellOf bareStave r c)) :=
  ⟨by decide, C7_digit5_is_digit1_with_digit4 (make 117) (by decide)⟩

/-- C8: digit 7 is 1 ∪ 6 as a set of cells: the cells `getDigit` writes for 7,
the nine cells (0,4)..(0,8), (1,8)..(4,8), are exactly the cells it writes for 1
together with those it writes for 6; and the cells in which the rendering of 7
differs from the bare stave are exactly those in which the rendering of 1 or
the rendering of 6 does. -/
theorem C8_digit7_cells_are_digit1_and_digit6 :
    writtenCells 7 = [(0, 4), (0, 5), (0, 6), (0, 7), (0, 8), (1, 8), (2, 8), (3, 8), (4, 8)] ∧
    (∀ p, p ∈ writtenCells 7 ↔ p ∈ writtenCells 1 ∨ p ∈ writtenCells 6) ∧
    ∃ s7 s1 s6, GenerateCistercianNumber 7 false = .ok (s7, none) ∧
      GenerateCistercianNumber 1 false = .ok (s1, none) ∧
      GenerateCistercianNumber 6 false = .ok (s6, none) ∧
      ∀ r, r < 13 → ∀ c, c < 9 →
        (cellOf s7 r c ≠ cellOf bareStave r c ↔
          cellOf s1 r c ≠ cellOf bareStave r c ∨ cellOf s6 r c ≠ cellOf bareStave r c) := by
  refine ⟨by decide, fun p => ⟨fun h => ?_, fun h => ?_⟩, _, _, _,
    render_7, render_1, render_6, by decide⟩
  · exact (by decide : ∀ q ∈ writtenCells 7, q ∈ writtenCells 1 ∨ q ∈ writtenCells 6) p h
  · rcases h with h | h
    · exact (by decide : ∀ q ∈ writtenCells 1, q ∈ writtenCells 7) p h
    · exact (by decide : ∀ q ∈ writtenCells 6, q ∈ writtenCells 7) p h

/-- C9: digit 9 is 1 ∪ 6 ∪ (the floor bar of 8) as a set of cells: the cells
`getDigit` writes for 9 are exactly the cells it writes for 1, those it writes
for 6, and the row-4 cells it writes for 8, which are columns 4 to 8 of row 4;
and the cells in which the rendering of 9 differs from the bare stave are
exactly those in which the rendering of 1 or of 6 does, or which lie in row 4
and in which the rendering of 8 does. -/
theorem C9_digit9_cells_are_digit1_digit6_and_floor_of_digit8 :
    (∀ p, p ∈ writtenCells 9 ↔
      p ∈ writtenCells 1 ∨ p ∈ writtenCells 6 ∨ (p ∈ writtenCells 8 ∧ p.1 = 4)) ∧
    (writtenCells 8).filter (fun p => p.1 = 4) = [(4, 4), (4, 5), (4, 6), (4, 7), (4, 8)] ∧
    ∃ s9 s1 s6 s8, GenerateCistercianNumber 9 false = .ok (s9, none) ∧
      GenerateCistercianNumber 1 false = .ok (s1, none) ∧
      GenerateCistercianNumber 6 false = .ok (s6, none) ∧
      GenerateCistercianNumber 8 false = .ok (s8, none) ∧
      ∀ r, r < 13 → ∀ c, c < 9 →
        (cellOf s9 r c ≠ cellOf bareStave r c ↔
          cellOf s1 r c ≠ cellOf bareStave r c ∨ cellOf s6 r c ≠ cellOf bareStave r c ∨
            (r = 4 ∧ cellOf s8 r c ≠ cellOf bareStave r c)) := by
  refine ⟨fun p => ⟨fun h => ?_, fun h => ?_⟩, by decide, _, _, _, _,
    render_9, render_1, render_6, render_8, by decide⟩
  · exact (by decide : ∀ q ∈ writtenCells 9,
      q ∈ writtenCells 1 ∨ q ∈ writtenCells 6 ∨ (q ∈ writtenCells 8 ∧ q.1 = 4)) p h
  · rcases h with h | h | ⟨h, e⟩
    · exact (by decide : ∀ q ∈ writtenCells 1, q ∈ writtenCells 9) p h
    · exact (by decide : ∀ q ∈ writtenCells 6, q ∈ writtenCells 9) p h
    · exact (by decide : ∀ q ∈ writtenCells 8, q.1 = 4 → q ∈ writtenCells 9) p h e

/-- C10, as the specification states it, fails: the rendering of 1 differs from
the bare stave at row 0, column 5, which is not in the bottom half (row ≥ 6);
so the statement for all digits 1..9 does not hold. -/
theorem C10_bottom_half_counterexample :
    (∃ s, GenerateCistercianNumber 1 false = .ok (s, none) ∧
      cellOf s 0 5 = some '─' ∧ cellOf bareStave 0 5 = some ' ' ∧
      cellOf s 0 5 ≠ cellOf bareStave 0 5 ∧ ¬ (4 ≤ 5 ∧ 6 ≤ 0)) ∧
    ¬ (∀ d : Int, 1 ≤ d → d ≤ 9 → ∀ s, GenerateCistercianNumber d false = .ok (s, none) →
        ∀ r, r < 13 → ∀ c, c < 9 →
          cellOf s r c ≠ cellOf bareStave r c → 4 ≤ c ∧ 6 ≤ r) := by
  refine ⟨⟨_, render_1, by decide, by decide, by decide, by decide⟩, fun h => ?_⟩
  have := (h 1 (by decide) (by decide) _ render_1 0 (by decide) 5 (by decide) (by decide)).2
  exact absurd this (by decide)

/-- C10, amended: the ones digit is drawn in the top-right quadrant: for every
digit `d` in 1..9 the rendering succeeds and every cell in which it differs from
the bare stave lies at or right of the stave (column ≥ 4) and in rows 0 to 4. -/
theorem C10_ones_digit_in_top_right (d : Int) (h1 : 1 ≤ d) (h9 : d ≤ 9) :
    ∃ s, GenerateCistercianNumber d false = .ok (s, none) ∧
      ∀ r, r < 13 → ∀ c, c < 9 →
        cellOf s r c ≠ cellOf bareStave r c → 4 ≤ c ∧ r ≤ 4 := by
  interval_cases d
  · exact ⟨_, render_1, by decide⟩
  · exact ⟨_, render_2, by decide⟩
  · exact ⟨_, render_3, by decide⟩
  · exact ⟨_, render_4, by decide⟩
  · exact ⟨_, render_5, by decide⟩
  · exact ⟨_, render_6, by decide⟩
  · exact ⟨_, render_7, by decide⟩
  · exact ⟨_, render_8, by decide⟩
  · exact ⟨_, render_9, by decide⟩

theorem C10_ones_digit_in_top_right_witness :
    (1 : Int) ≤ 7 ∧ (7 : Int) ≤ 9 ∧
      ∃ s, GenerateCistercianNumber 7 false = .ok (s, none) ∧
        ∀ r, r < 13 → ∀ c, c < 9 →
          cellOf s r c ≠ cellOf bareStave r c → 4 ≤ c ∧ r ≤ 4 :=
  ⟨by decide, by decide, C10_ones_digit_in_top_right 7 (by decide) (by decide)⟩

/-! ## The stave pass -/

theorem forLoop_step {σ : Type} (body : Nat → σ → Except Panic σ) (lo count : Nat) (s s' : σ)
    (h : body lo s = .ok s') : forLoop body lo (count + 1) s = forLoop body (lo + 1) count s' := by
  rw [forLoop, h]

theorem stave_row (row : Nat) (char : Char) (count : Nat) :
    ∀ (lo : Nat) (g : List Char), row * CistercianNumberWidth + lo + count ≤ g.length →
      ∃ g', forLoop (fun col glyph =>
          if col = 4 then store glyph (row * CistercianNumberWidth + col) char
          else store glyph (row * CistercianNumberWidth + col) ' ') lo count g = .ok g' ∧
        g'.length = g.length ∧
        ∀ i, g'.get? i =
          if row * CistercianNumberWidth + lo ≤ i ∧ i < row * CistercianNumberWidth + lo + count
          then some (if i = row * CistercianNumberWidth + 4 then char else ' ')
          else g.get? i := by
  induction count with
  | zero =>
    intro lo g _
    refine ⟨g, rfl, rfl, fun i => ?_⟩
    rw [if_neg (by omega)]
  | succ count ih =>
    intro lo g hlen
    have hlt : row * CistercianNumberWidth + lo < g.length := by omega
    have hb : (if lo = 4 then store g (row * CistercianNumberWidth + lo) char
        else store g (row * CistercianNumberWidth + lo) ' ') =
        .ok (g.set (row * CistercianNumberWidth + lo) (if lo = 4 then char else ' ')) := by
      split <;> simp [store, hlt]
    have hlen' : row * CistercianNumberWidth + (lo + 1) + count ≤
        (g.set (row * CistercianNumberWidth + lo) (if lo = 4 then char else ' ')).length := by
      simp only [List.length_set]
      omega
    obtain ⟨g', h1, h2, h3⟩ := ih (lo + 1) _ hlen'
    refine ⟨g', ?_, by rw [h2, List.length_set], fun i => ?_⟩
    · exact (forLoop_step _ lo count g _ hb).trans h1
    · rw [h3 i]
      by_cases hi : i = row * CistercianNumberWidth + lo
      · have hA : ¬ (row * CistercianNumberWidth + (lo + 1) ≤ i ∧
            i < row * CistercianNumberWidth + (lo + 1) + count) := by omega
        have hB : row * CistercianNumberWidth + lo ≤ i ∧
            i < row * CistercianNumberWidth + lo + (count + 1) := by omega
        rw [if_neg hA, if_pos hB, hi]
        by_cases h4 : lo = 4
        · subst h4
          simp [List.getElem?_set, hlt]
        · have hne : row * CistercianNumberWidth + lo ≠ row * CistercianNumberWidth + 4 := by
            omega
          simp [List.getElem?_set, hlt, h4]
      · by_cases hin : row * CistercianNumberWidth + (lo + 1) ≤ i ∧
            i < row * CistercianNumberWidth + (lo + 1) + count
        · have hB : row * CistercianNumberWidth + lo ≤ i ∧
              i < row * CistercianNumberWidth + lo + (count + 1) := by omega
          rw [if_pos hin, if_pos hB]
        · have hB : ¬ (row * CistercianNumberWidth + lo ≤ i ∧
              i < row * CistercianNumberWidth + lo + (count + 1)) := by omega
          have hne : ¬ row * CistercianNumberWidth + lo = i := fun e => hi e.symm
          rw [if_neg hin, if_neg hB]
          simp only [List.get?_eq_getElem?, List.getElem?_set, if_neg hne]

theorem stave_rows (count : Nat) :
    ∀ (lo : Nat) (g : List Char), (lo + count) * CistercianNumberWidth ≤ g.length →
      ∃ g', forLoop (fun row glyph =>
          let char := boxChars[1]
          let char := if row = 0 then boxChars[16] else char
          let char := if row = CistercianNumberHeight - 1 then boxChars[14] else char
          forLoop (fun col glyph =>
            if col = 4 then store glyph (row * CistercianNumberWidth + col) char
            else store glyph (row * CistercianNumberWidth + col) ' ')
            0 CistercianNumberWidth glyph) lo count g = .ok g' ∧
        g'.length = g.length ∧
        ∀ i, g'.get? i =
          if lo * CistercianNumberWidth ≤ i ∧ i < (lo + count) * CistercianNumberWidth
          then some (staveCell (i / CistercianNumberWidth) (i % CistercianNumberWidth))
          else g.get? i := by
  induction count with
  | zero =>
    intro lo g _
    refine ⟨g, rfl, rfl, fun i => ?_⟩
    rw [if_neg (by simp only [CistercianNumberWidth]; omega)]
  | succ count ih =>
    intro lo g hlen
    simp only [CistercianNumberWidth] at hlen
    obtain ⟨g1, a1, a2, a3⟩ := stave_row lo
      (if lo = CistercianNumberHeight - 1 then boxChars[14]
        else if lo = 0 then boxChars[16] else boxChars[1]) CistercianNumberWidth 0 g
      (by simp only [CistercianNumberWidth]; omega)
    obtain ⟨g', h1, h2, h3⟩ := ih (lo + 1) g1 (by rw [a2]; simp only [CistercianNumberWidth]; omega)
    refine ⟨g', ?_, by rw [h2, a2], fun i => ?_⟩
    · exact (forLoop_step _ lo count g g1 a1).trans h1
    · rw [h3 i, a3 i]
      simp only [CistercianNumberWidth]
      by_cases hr : lo * 9 ≤ i ∧ i < lo * 9 + 9
      · have hq : i / 9 = lo := by omega
        have hA : ¬ ((lo + 1) * 9 ≤ i ∧ i < (lo + 1 + count) * 9) := by omega
        have hB : lo * 9 + 0 ≤ i ∧ i < lo * 9 + 0 + 9 := by omega
        have hC : lo * 9 ≤ i ∧ i < (lo + (count + 1)) * 9 := by omega
        rw [if_neg hA, if_pos hB, if_pos hC]
        simp only [staveCell, hq]
        by_cases h4 : i = lo * 9 + 4
        · have hm : i % 9 = 4 := by omega
          rw [if_pos h4, if_pos hm]
        · have hm : i % 9 ≠ 4 := by omega
          rw [if_neg h4, if_neg hm]
      · by_cases hin : (lo + 1) * 9 ≤ i ∧ i < (lo + 1 + count) * 9
        · have hC : lo * 9 ≤ i ∧ i < (lo + (count + 1)) * 9 := by omega
          rw [if_pos hin, if_pos hC]
        · have hB : ¬ (lo * 9 + 0 ≤ i ∧ i < lo * 9 + 0 + 9) := by omega
          have hC : ¬ (lo * 9 ≤ i ∧ i < (lo + (count + 1)) * 9) := by omega
          rw [if_neg hin, if_neg hB, if_neg hC]

/-- The stave pass overwrites every cell: on every buffer of 117 cells
`addCenterStave` returns the grid of the bare stave. -/
theorem addCenterStave_eq (g : List Char)
    (hg : g.length = CistercianNumberHeight * CistercianNumberWidth) :
    addCenterStave g = .ok staveGrid := by
  obtain ⟨g', h1, h2, h3⟩ := stave_rows CistercianNumberHeight 0 g (by rw [hg]; rfl)
  have : g' = staveGrid := by
    apply List.ext_get?
    intro i
    rw [h3 i]
    by_cases hi : i < CistercianNumberHeight * CistercianNumberWidth
    · rw [if_pos ⟨by omega, by simpa using hi⟩]
      simp [staveGrid, List.getElem?_map, List.getElem?_range hi]
    · rw [if_neg (by intro h; exact hi (by simpa using h.2))]
      rw [List.get?_eq_none.mpr (by omega), List.get?_eq_none.mpr (by simp [staveGrid]; omega)]
  rw [← this]
  exact h1

/-! ## The composed grid and its serialisation -/

/-- The body of `generateCistercianNumberASCII` below the range check: compose
the grid in a fresh buffer, write its rows, return the string and a nil error. -/
theorem ascii_eq_compose (n : Int) (h : n ≤ 9999) :
    GenerateCistercianNumber n false =
      (do
        let glyph ← composeGlyph (make (CistercianNumberHeight * CistercianNumberWidth)) n
        let sb ← writeRows glyph ""
        .ok (sb, none)) := by
  have hn : ¬ n > MaxCistercianNumber := by simp [MaxCistercianNumber]; omega
  simp only [GenerateCistercianNumber, generateCistercianNumberASCII, composeGlyph, hn,
    if_false, Bool.false_eq_true]
  cases addCenterStave (make (CistercianNumberHeight * CistercianNumberWidth)) <;> rfl

/-- Whatever the buffer of 117 cells held, the composed grid is the digit
stamped on the grid of the bare stave. -/
theorem composeGlyph_eq (g0 : List Char)
    (hg : g0.length = CistercianNumberHeight * CistercianNumberWidth) (n : Int) :
    composeGlyph g0 n = getDigit (n.tmod 10) staveGrid := by
  simp only [composeGlyph, addCenterStave_eq g0 hg, addOnesPlace]
  rfl

theorem make_length (k : Nat) : (make k).length = k := by
  simp [make]

/-- The returned string is the serialisation of the composed grid. -/
theorem glyph_of_output (n : Int) (h : n ≤ 9999) (s : String)
    (hs : GenerateCistercianNumber n false = .ok (s, none)) :
    ∃ g, composeGlyph (make (CistercianNumberHeight * CistercianNumberWidth)) n = .ok g ∧
      writeRows g "" = .ok s := by
  rw [ascii_eq_compose n h] at hs
  cases hc : composeGlyph (make (CistercianNumberHeight * CistercianNumberWidth)) n with
  | error e => rw [hc] at hs; cases hs
  | ok g =>
    rw [hc] at hs
    have hs' : (writeRows g "" >>= fun sb => Except.ok (sb, (none : Option GoError))) =
        .ok (s, none) := hs
    cases hw : writeRows g "" with
    | error e => rw [hw] at hs'; cases hs'
    | ok sb =>
      rw [hw] at hs'
      have h1 : (sb, (none : Option GoError)) = (s, none) := Except.ok.inj hs'
      exact ⟨g, rfl, by rw [hw, (Prod.mk.inj h1).1]⟩

/-- Below the maximum the number acts through a digit in `0..9`: its remainder
if it is not negative, and the no-stroke digit 0 if it is. -/
theorem digit_cases (n : Int) (h : n ≤ 9999) :
    ∃ d : Int, 0 ≤ d ∧ d ≤ 9 ∧ getDigit (n.tmod 10) = getDigit d ∧
      GenerateCistercianNumber n false = GenerateCistercianNumber d false := by
  by_cases hneg : n < 0
  · refine ⟨0, by decide, by decide, ?_, ascii_negative n hneg⟩
    funext g
    rw [getDigit_default _ g (Or.inl (tmod_ten_of_neg n hneg).2),
      getDigit_default _ g (Or.inl (by decide))]
  · have h0 : 0 ≤ n := by omega
    refine ⟨n % 10, by omega, by omega, by rw [tmod_ten_of_nonneg n h0], ascii_ones n h0 h⟩

/-- Each digit's grid and output: the grid has 117 cells, each a space or a
symbol of `boxChars`; the output is its rows joined by line breaks, 129
characters of which 12 are line breaks, none first or last. -/
theorem digit_glyph (d : Int) (h0 : 0 ≤ d) (h9 : d ≤ 9) :
    ∃ g s, getDigit d staveGrid = .ok g ∧ GenerateCistercianNumber d false = .ok (s, none) ∧
      g.length = CistercianNumberHeight * CistercianNumberWidth ∧
      (∀ ch ∈ g, ch = ' ' ∨ ch ∈ boxChars) ∧
      s.data = ['\n'].intercalate (rowsOf g) ∧
      linesOf s = rowsOf g ∧
      (∀ ch ∈ s.data, ch ≠ '\n' → ch = ' ' ∨ ch ∈ boxChars) ∧
      (s.length = 129 ∧ s.data.count '\n' = 12 ∧
        s.data.head? ≠ some '\n' ∧ s.data.getLast? ≠ some '\n') := by
  interval_cases d
  · exact ⟨_, _, rfl, render_0, by decide, by decide, by decide, by decide, by decide, by decide⟩
  · exact ⟨_, _, rfl, render_1, by decide, by decide, by decide, by decide, by decide, by decide⟩
  · exact ⟨_, _, rfl, render_2, by decide, by decide, by decide, by decide, by decide, by decide⟩
  · exact ⟨_, _, rfl, render_3, by decide, by decide, by decide, by decide, by decide, by decide⟩
  · exact ⟨_, _, rfl, render_4, by decide, by decide, by decide, by decide, by decide, by decide⟩
  · exact ⟨_, _, rfl, render_5, by decide, by decide, by decide, by decide, by decide, by decide⟩
  · exact ⟨_, _, rfl, render_6, by decide, by decide, by decide, by decide, by decide, by decide⟩
  · exact ⟨_, _, rfl, render_7, by decide, by decide, by decide, by decide, by decide, by decide⟩
  · exact ⟨_, _, rfl, render_8, by decide, by decide, by decide, by decide, by decide, by decide⟩
  · exact ⟨_, _, rfl, render_9, by decide, by decide, by decide, by decide, by decide, by decide⟩

/-- For every number up to the maximum: the grid composed in the fresh buffer,
the string written from it, and what `digit_glyph` says of them. -/
theorem glyph_facts (n : Int) (h : n ≤ 9999) :
    ∃ g s, composeGlyph (make (CistercianNumberHeight * CistercianNumberWidth)) n = .ok g ∧
      writeRows g "" = .ok s ∧ GenerateCistercianNumber n false = .ok (s, none) ∧
      g.length = CistercianNumberHeight * CistercianNumberWidth ∧
      (∀ ch ∈ g, ch = ' ' ∨ ch ∈ boxChars) ∧
      s.data = ['\n'].intercalate (rowsOf g) ∧
      linesOf s = rowsOf g ∧
      (∀ ch ∈ s.data, ch ≠ '\n' → ch = ' ' ∨ ch ∈ boxChars) ∧
      (s.length = 129 ∧ s.data.count '\n' = 12 ∧
        s.data.head? ≠ some '\n' ∧ s.data.getLast? ≠ some '\n') := by
  obtain ⟨d, h0, h9, hd, hgen⟩ := digit_cases n h
  obtain ⟨g, s, hg, hs, hrest⟩ := digit_glyph d h0 h9
  have hc : composeGlyph (make (CistercianNumberHeight * CistercianNumberWidth)) n = .ok g := by
    rw [composeGlyph_eq _ (make_length _) n, hd, hg]
  have hs' : GenerateCistercianNumber n false = .ok (s, none) := by rw [hgen, hs]
  obtain ⟨g', hc', hw⟩ := glyph_of_output n h s hs'
  have hgg : g' = g := Except.ok.inj (hc'.symm.trans hc)
  rw [hgg] at hw
  exact ⟨g, s, hc, hw, hs', hrest⟩

/-! ## Two calls in one memory

The functions on a world simulate the functions on a grid: with `boxChars` at
its initialiser and the backing array at `a` holding `g`, each does to that
array what its counterpart does to `g`, and touches nothing else. -/

theorem storeAt_sim (heap : List (List Char)) (a : Nat) (ha : a < heap.length)
    (g : List Char) (i : Nat) (v : Char) :
    storeAt a i v ⟨boxChars, heap.set a g⟩ =
      (store g i v).map (fun g' => (⟨boxChars, heap.set a g'⟩ : World)) := by
  simp only [storeAt, store, List.get?_eq_getElem?, List.getElem?_set, ha, if_true]
  split <;> simp [Except.map, List.set_set]

theorem loadAt_sim (heap : List (List Char)) (a : Nat) (ha : a < heap.length)
    (g : List Char) (i : Nat) :
    loadAt a i ⟨boxChars, heap.set a g⟩ = load g i := by
  simp [loadAt, List.getElem?_set, ha]

theorem bind_sim {σ τ : Type} (inj : σ → τ) (x : Except Panic σ) (xW : Except Panic τ)
    (f : σ → Except Panic σ) (fW : τ → Except Panic τ) (hx : xW = x.map inj)
    (hf : ∀ s, fW (inj s) = (f s).map inj) : (xW >>= fW) = (x >>= f).map inj := by
  subst hx
  cases x with
  | error e => rfl
  | ok s => exact hf s

theorem forLoop_sim {σ τ : Type} (inj : σ → τ) (body : Nat → σ → Except Panic σ)
    (bodyW : Nat → τ → Except Panic τ) (h : ∀ i s, bodyW i (inj s) = (body i s).map inj)
    (count : Nat) : ∀ (lo : Nat) (s : σ),
      forLoop bodyW lo count (inj s) = (forLoop body lo count s).map inj := by
  induction count with
  | zero => intro lo s; rfl
  | succ count ih =>
    intro lo s
    rw [forLoop, forLoop, h lo s]
    cases body lo s with
    | error e => rfl
    | ok s' => exact ih (lo + 1) s'

theorem getDigitAt_sim (d : Int) (heap : List (List Char)) (a : Nat) (ha : a < heap.length)
    (g : List Char) :
    getDigitAt d a ⟨boxChars, heap.set a g⟩ =
      (getDigit d g).map (fun g' => (⟨boxChars, heap.set a g'⟩ : World)) := by
  unfold getDigitAt getDigit
  split
  all_goals
    repeat' first
      | exact storeAt_sim heap a ha _ _ _
      | rfl
      | refine forLoop_sim (fun g' => (⟨boxChars, heap.set a g'⟩ : World)) _ _ (fun i s => ?_) _ _ _
      | refine bind_sim (fun g' => (⟨boxChars, heap.set a g'⟩ : World)) _ _ _ _ ?_ (fun s => ?_)

theorem addCenterStaveAt_sim (heap : List (List Char)) (a : Nat) (ha : a < heap.length)
    (g : List Char) :
    addCenterStaveAt a ⟨boxChars, heap.set a g⟩ =
      (addCenterStave g).map (fun g' => (⟨boxChars, heap.set a g'⟩ : World)) := by
  unfold addCenterStaveAt addCenterStave
  refine forLoop_sim (fun g' => (⟨boxChars, heap.set a g'⟩ : World)) _ _ (fun row s => ?_) _ _ _
  refine forLoop_sim (fun g' => (⟨boxChars, heap.set a g'⟩ : World)) _ _ (fun col s' => ?_) _ _ _
  split
  · exact storeAt_sim heap a ha _ _ _
  · exact storeAt_sim heap a ha _ _ _

theorem writeRowsAt_sim (heap : List (List Char)) (a : Nat) (ha : a < heap.length)
    (g : List Char) (sb : String) :
    writeRowsAt a sb ⟨boxChars, heap.set a g⟩ = writeRows g sb := by
  simp only [writeRowsAt, writeRows, loadAt_sim heap a ha g]

/-- One call in a world where `boxChars` holds its initialiser: it returns what
`GenerateCistercianNumber` returns, whatever the heap holds; it leaves
`boxChars` and every backing array allocated before as they were; and below the
maximum it allocates one new backing array. -/
theorem call_spec (n : Int) (w : World) (hw : w.boxChars = boxChars) :
    ∃ r w', GenerateCistercianNumberAt n false w = .ok (r, w') ∧
      GenerateCistercianNumber n false = .ok r ∧
      w'.boxChars = boxChars ∧
      (∀ a, a < w.heap.length → w'.heap.get? a = w.heap.get? a) ∧
      (n ≤ 9999 → w'.heap.length = w.heap.length + 1) ∧
      (9999 < n → w' = w) := by
  obtain ⟨bc, heap⟩ := w
  simp only at hw
  subst hw
  by_cases hn : n > MaxCistercianNumber
  · have h9 : 9999 < n := hn
    refine ⟨("", some (errorfTooLarge n)), ⟨boxChars, heap⟩, ?_, ?_, rfl, fun a _ => rfl,
      fun h => by omega, fun _ => rfl⟩
    · simp [GenerateCistercianNumberAt, generateCistercianNumberASCIIAt, hn]
    · simp [GenerateCistercianNumber, generateCistercianNumberASCII, hn]
  · have h9 : n ≤ 9999 := by simp [MaxCistercianNumber] at hn; omega
    obtain ⟨g, s, hc, hwr, hs, _⟩ := glyph_facts n h9
    have ha : heap.length < (heap ++ [make (CistercianNumberHeight * CistercianNumberWidth)]).length := by
      simp
    have e : (⟨boxChars, heap ++ [make (CistercianNumberHeight * CistercianNumberWidth)]⟩ : World) =
        ⟨boxChars, (heap ++ [make (CistercianNumberHeight * CistercianNumberWidth)]).set heap.length
          (make (CistercianNumberHeight * CistercianNumberWidth))⟩ := by
      congr 1
      apply List.ext_getElem?
      intro i
      by_cases hi : i = heap.length
      · subst hi; simp [List.getElem?_set]
      · simp [List.getElem?_set, Ne.symm hi]
    simp only [composeGlyph, addOnesPlace] at hc
    cases hst : addCenterStave (make (CistercianNumberHeight * CistercianNumberWidth)) with
    | error err => rw [hst] at hc; cases hc
    | ok g1 =>
      rw [hst] at hc
      have hc' : getDigit (n.tmod 10) g1 = .ok g := hc
      refine ⟨(s, none), ⟨boxChars,
        (heap ++ [make (CistercianNumberHeight * CistercianNumberWidth)]).set heap.length g⟩,
        ?_, hs, rfl, fun a hlt => ?_, fun _ => by simp, fun h => by omega⟩
      · simp only [GenerateCistercianNumberAt, generateCistercianNumberASCIIAt, hn, makeAt,
          addOnesPlaceAt, if_false, Bool.false_eq_true]
        rw [e, addCenterStaveAt_sim _ _ ha, hst]
        simp only [Except.map, bind, Except.bind]
        rw [getDigitAt_sim _ _ _ ha, hc']
        simp only [Except.map]
        rw [writeRowsAt_sim _ _ ha, hwr]
      · have hlt' : a < heap.length := hlt
        have hne : ¬ heap.length = a := by omega
        simp only [List.get?_eq_getElem?, List.getElem?_set, if_neg hne]
        exact List.getElem?_append_left hlt'

/-! ## The claims, continued -/

/-- C11: the alphabet invariant: for every integer `n ≤ 9999` the call returns
the serialisation of the grid it composed, and every cell of that grid, hence
every character of the output other than the line breaks, is a space or one of
the 17 symbols of `boxChars`; the zero rune of the fresh buffer is in neither. -/
theorem C11_alphabet_invariant (n : Int) (h : n ≤ 9999) :
    ∃ g s, composeGlyph (make (CistercianNumberHeight * CistercianNumberWidth)) n = .ok g ∧
      writeRows g "" = .ok s ∧ GenerateCistercianNumber n false = .ok (s, none) ∧
      (∀ ch ∈ g, ch = ' ' ∨ ch ∈ boxChars) ∧
      (∀ ch ∈ s.data, ch ≠ '\n' → ch = ' ' ∨ ch ∈ boxChars) ∧
      Char.ofNat 0 ∉ g ∧ Char.ofNat 0 ∉ s.data ∧
      boxChars.length = 17 ∧ boxChars.Nodup := by
  obtain ⟨g, s, hc, hw, hs, _, hcells, _, _, hout, _⟩ := glyph_facts n h
  have hz : ¬ (Char.ofNat 0 = ' ' ∨ Char.ofNat 0 ∈ boxChars) := by decide
  exact ⟨g, s, hc, hw, hs, hcells, hout, fun hin => hz (hcells _ hin),
    fun hin => hz (hout _ hin (by decide)), by decide, by decide⟩

theorem C11_alphabet_invariant_witness :
    (9 : Int) ≤ 9999 ∧
    ∃ g s, composeGlyph (make (CistercianNumberHeight * CistercianNumberWidth)) 9 = .ok g ∧
      writeRows g "" = .ok s ∧ GenerateCistercianNumber 9 false = .ok (s, none) ∧
      (∀ ch ∈ g, ch = ' ' ∨ ch ∈ boxChars) ∧
      (∀ ch ∈ s.data, ch ≠ '\n' → ch = ' ' ∨ ch ∈ boxChars) ∧
      Char.ofNat 0 ∉ g ∧ Char.ofNat 0 ∉ s.data ∧
      boxChars.length = 17 ∧ boxChars.Nodup :=
  ⟨by decide, C11_alphabet_invariant 9 (by decide)⟩

/-- C12: serialisation: for every integer `n ≤ 9999` the output is the 13 rows
of the composed row-major grid, row `r` being cells `r * 9 .. r * 9 + 8` in
order, joined by one line break each; it has 13 * 9 + 12 = 129 characters, 12 of
them line breaks, and neither begins nor ends with a line break. -/
theorem C12_serialisation (n : Int) (h : n ≤ 9999) :
    ∃ g s, composeGlyph (make (CistercianNumberHeight * CistercianNumberWidth)) n = .ok g ∧
      writeRows g "" = .ok s ∧ GenerateCistercianNumber n false = .ok (s, none) ∧
      g.length = 13 * 9 ∧
      s.data = ['\n'].intercalate (rowsOf g) ∧
      linesOf s = rowsOf g ∧
      s.length = 13 * 9 + 12 ∧ s.data.count '\n' = 12 ∧
      s.data.head? ≠ some '\n' ∧ s.data.getLast? ≠ some '\n' := by
  obtain ⟨g, s, hc, hw, hs, hlen, _, hser, hlines, _, h129, hcount, hhead, hlast⟩ :=
    glyph_facts n h
  exact ⟨g, s, hc, hw, hs, hlen, hser, hlines, h129, hcount, hhead, hlast⟩

theorem C12_serialisation_witness :
    (7 : Int) ≤ 9999 ∧
    ∃ g s, composeGlyph (make (CistercianNumberHeight * CistercianNumberWidth)) 7 = .ok g ∧
      writeRows g "" = .ok s ∧ GenerateCistercianNumber 7 false = .ok (s, none) ∧
      g.length = 13 * 9 ∧
      s.data = ['\n'].intercalate (rowsOf g) ∧
      linesOf s = rowsOf g ∧
      s.length = 13 * 9 + 12 ∧ s.data.count '\n' = 12 ∧
      s.data.head? ≠ some '\n' ∧ s.data.getLast? ≠ some '\n' :=
  ⟨by decide, C12_serialisation 7 (by decide)⟩

/-- C13: determinism: in any memory in which `boxChars` holds its initialiser,
two calls of `GenerateCistercianNumber(n, false)`, the second in the memory the
first left, return the same string and the same error, those of
`GenerateCistercianNumber`; each call below the maximum composes in a backing
array of its own, newly made, and no call changes `boxChars` or a backing array
made before it, so nothing one call wrote is read by the other. -/
theorem C13_two_calls_agree (n : Int) (w : World) (hw : w.boxChars = boxChars) :
    ∃ r w1 w2, GenerateCistercianNumberAt n false w = .ok (r, w1) ∧
      GenerateCistercianNumberAt n false w1 = .ok (r, w2) ∧
      GenerateCistercianNumber n false = .ok r ∧
      w1.boxChars = w.boxChars ∧ w2.boxChars = w.boxChars ∧
      (∀ a, a < w.heap.length → w1.heap.get? a = w.heap.get? a) ∧
      (∀ a, a < w1.heap.length → w2.heap.get? a = w1.heap.get? a) ∧
      (n ≤ 9999 → w1.heap.length = w.heap.length + 1 ∧ w2.heap.length = w1.heap.length + 1) := by
  obtain ⟨r, w1, h1, hr, hb1, hf1, hl1, _⟩ := call_spec n w hw
  obtain ⟨r', w2, h2, hr', hb2, hf2, hl2, _⟩ := call_spec n w1 hb1
  have hrr : r' = r := Except.ok.inj (hr'.symm.trans hr)
  rw [hrr] at h2
  exact ⟨r, w1, w2, h1, h2, hr, hb1.trans hw.symm, hb2.trans hw.symm, hf1, hf2,
    fun h => ⟨hl1 h, hl2 h⟩⟩

theorem C13_two_calls_agree_witness :
    initialWorld.boxChars = boxChars ∧
    ∃ r w1 w2, GenerateCistercianNumberAt 42 false initialWorld = .ok (r, w1) ∧
      GenerateCistercianNumberAt 42 false w1 = .ok (r, w2) ∧
      GenerateCistercianNumber 42 false = .ok r ∧
      w1.boxChars = initialWorld.boxChars ∧ w2.boxChars = initialWorld.boxChars ∧
      (∀ a, a < initialWorld.heap.length → w1.heap.get? a = initialWorld.heap.get? a) ∧
      (∀ a, a < w1.heap.length → w2.heap.get? a = w1.heap.get? a) ∧
      ((42 : Int) ≤ 9999 →
        w1.heap.length = initialWorld.heap.length + 1 ∧ w2.heap.length = w1.heap.length + 1) :=
  ⟨rfl, C13_two_calls_agree 42 initialWorld rfl⟩

/-- C14: the digit strokes stay in rows 0 to 4 and columns 4 to 8: for every
integer `n ≤ 9999` the call succeeds and every cell of the output outside that
rectangle equals the cell of the bare stave; so columns 0 to 3 are blank in
every row, and rows 5 to 12 are those of the bare stave. -/
theorem C14_strokes_confined (n : Int) (h : n ≤ 9999) :
    ∃ s, GenerateCistercianNumber n false = .ok (s, none) ∧
      (∀ r, r < 13 → ∀ c, c < 9 → ¬ (r ≤ 4 ∧ 4 ≤ c) → cellOf s r c = cellOf bareStave r c) ∧
      (∀ r, r < 13 → ∀ c, c < 4 → cellOf s r c = some ' ') ∧
      (∀ r, r < 13 → 5 ≤ r → (linesOf s).get? r = (linesOf bareStave).get? r) := by
  obtain ⟨d, h0, h9, _, hgen⟩ := digit_cases n h
  rw [hgen]
  interval_cases d
  · exact ⟨_, render_0, by decide, by decide, by decide⟩
  · exact ⟨_, render_1, by decide, by decide, by decide⟩
  · exact ⟨_, render_2, by decide, by decide, by decide⟩
  · exact ⟨_, render_3, by decide, by decide, by decide⟩
  · exact ⟨_, render_4, by decide, by decide, by decide⟩
  · exact ⟨_, render_5, by decide, by decide, by decide⟩
  · exact ⟨_, render_6, by decide, by decide, by decide⟩
  · exact ⟨_, render_7, by decide, by decide, by decide⟩
  · exact ⟨_, render_8, by decide, by decide, by decide⟩
  · exact ⟨_, render_9, by decide, by decide, by decide⟩

theorem C14_strokes_confined_witness :
    (9 : Int) ≤ 9999 ∧
    ∃ s, GenerateCistercianNumber 9 false = .ok (s, none) ∧
      (∀ r, r < 13 → ∀ c, c < 9 → ¬ (r ≤ 4 ∧ 4 ≤ c) → cellOf s r c = cellOf bareStave r c) ∧
      (∀ r, r < 13 → ∀ c, c < 4 → cellOf s r c = some ' ') ∧
      (∀ r, r < 13 → 5 ≤ r → (linesOf s).get? r = (linesOf bareStave).get? r) :=
  ⟨by decide, C14_strokes_confined 9 (by decide)⟩

/-- C15: the central stave is never erased: for every integer `n ≤ 9999` the
call succeeds and in every row 0..12 of the output column 4 holds a symbol of
`boxChars`, never a space; outside rows 0 and 4 it holds the stave's own symbol. -/
theorem C15_stave_never_erased (n : Int) (h : n ≤ 9999) :
    ∃ s, GenerateCistercianNumber n false = .ok (s, none) ∧
      (∀ r, r < 13 → ∃ ch ∈ boxChars, cellOf s r 4 = some ch) ∧
      (∀ r, r < 13 → cellOf s r 4 ≠ some ' ') ∧
      (∀ r, r < 13 → r ≠ 0 → r ≠ 4 → cellOf s r 4 = cellOf bareStave r 4) ∧
      ' ' ∉ boxChars := by
  obtain ⟨d, h0, h9, _, hgen⟩ := digit_cases n h
  rw [hgen]
  interval_cases d
  · exact ⟨_, render_0, by decide, by decide, by decide, by decide⟩
  · exact ⟨_, render_1, by decide, by decide, by decide, by decide⟩
  · exact ⟨_, render_2, by decide, by decide, by decide, by decide⟩
  · exact ⟨_, render_3, by decide, by decide, by decide, by decide⟩
  · exact ⟨_, render_4, by decide, by decide, by decide, by decide⟩
  · exact ⟨_, render_5, by decide, by decide, by decide, by decide⟩
  · exact ⟨_, render_6, by decide, by decide, by decide, by decide⟩
  · exact ⟨_, render_7, by decide, by decide, by decide, by decide⟩
  · exact ⟨_, render_8, by decide, by decide, by decide, by decide⟩
  · exact ⟨_, render_9, by decide, by decide, by decide, by decide⟩

theorem C15_stave_never_erased_witness :
    (9 : Int) ≤ 9999 ∧
    ∃ s, GenerateCistercianNumber 9 false = .ok (s, none) ∧
      (∀ r, r < 13 → ∃ ch ∈ boxChars, cellOf s r 4 = some ch) ∧
      (∀ r, r < 13 → cellOf s r 4 ≠ some ' ') ∧
      (∀ r, r < 13 → r ≠ 0 → r ≠ 4 → cellOf s r 4 = cellOf bareStave r 4) ∧
      ' ' ∉ boxChars :=
  ⟨by decide, C15_stave_never_erased 9 (by decide)⟩

/-- C16, as the specification states it, fails: the range check lets -3
through (the call returns the bare stave, no error), and the digit handed to
the stamper is -3 % 10 = -3, which is outside 0..9. -/
theorem C16_negative_digit_counterexample :
    ¬ ((-3 : Int) > MaxCistercianNumber) ∧
    GenerateCistercianNumber (-3) false = .ok (bareStave, none) ∧
    onesDigitOf (-3) = some (-3) ∧
    ¬ (0 ≤ (-3 : Int) ∧ (-3 : Int) ≤ 9) :=
  ⟨by decide, by rw [ascii_negative (-3) (by decide)]; exact render_0, by decide, by decide⟩

/-- C16, amended: for every integer `n` with `0 ≤ n` that the range check lets
through (`n ≤ 9999`), the digit `n % 10` handed to the stamper lies in 0..9: it
is with this digit that the grid is composed, in whatever buffer. -/
theorem C16_digit_in_table_of_nonneg (n : Int) (h0 : 0 ≤ n) (h1 : n ≤ 9999) :
    ∃ d, onesDigitOf n = some d ∧ 0 ≤ d ∧ d ≤ 9 ∧
      ∀ g0, composeGlyph g0 n = (addCenterStave g0 >>= addOnesPlace d) := by
  have hn : ¬ n > MaxCistercianNumber := by simp [MaxCistercianNumber]; omega
  refine ⟨n.tmod 10, by simp [onesDigitOf, hn], ?_, ?_, fun g0 => rfl⟩
  · rw [tmod_ten_of_nonneg n h0]; omega
  · rw [tmod_ten_of_nonneg n h0]; omega

theorem C16_digit_in_table_of_nonneg_witness :
    (0 : Int) ≤ 1234 ∧ (1234 : Int) ≤ 9999 ∧
    ∃ d, onesDigitOf 1234 = some d ∧ 0 ≤ d ∧ d ≤ 9 ∧
      ∀ g0, composeGlyph g0 1234 = (addCenterStave g0 >>= addOnesPlace d) :=
  ⟨by decide, by decide, C16_digit_in_table_of_nonneg 1234 (by decide) (by decide)⟩

/-- C17: the pattern of digit 1: the rendering of 1 has row 0 equal to four
spaces, the corner in column 4 and the horizontal line in columns 5 to 8; rows
1 to 12 are those of the bare stave; and the cells in which it differs from
the bare stave are exactly the five cells of row 0 from column 4 on. -/
theorem C17_digit1_pattern :
    ∃ s, GenerateCistercianNumber 1 false = .ok (s, none) ∧
      (linesOf s).get? 0 = some [' ', ' ', ' ', ' ', '┌', '─', '─', '─', '─'] ∧
      (∀ r, r < 13 → 1 ≤ r → (linesOf s).get? r = (linesOf bareStave).get? r) ∧
      (∀ r, r < 13 → ∀ c, c < 9 →
        (cellOf s r c ≠ cellOf bareStave r c ↔ r = 0 ∧ 4 ≤ c)) :=
  ⟨_, render_1, by decide, by decide, by decide⟩

/-- C18: digit 4 is the mirror of digit 3: the rendering of 3 differs from the
bare stave in exactly the cells (1,5), (2,6), (3,7), each the falling diagonal;
the rendering of 4 in exactly (1,7), (2,6), (3,5), each the rising diagonal; so
for every row `r` and every column `c` in 5..7, cell `(r, c)` of 3 is the
falling diagonal iff cell `(r, 12 - c)` of 4 is the rising one. -/
theorem C18_digit4_mirrors_digit3 :
    ∃ s3 s4, GenerateCistercianNumber 3 false = .ok (s3, none) ∧
      GenerateCistercianNumber 4 false = .ok (s4, none) ∧
      (∀ r, r < 13 → ∀ c, c < 9 →
        (cellOf s3 r c ≠ cellOf bareStave r c ↔ (r, c) ∈ [(1, 5), (2, 6), (3, 7)])) ∧
      (∀ p ∈ [(1, 5), (2, 6), (3, 7)], cellOf s3 p.1 p.2 = some '╲') ∧
      (∀ r, r < 13 → ∀ c, c < 9 →
        (cellOf s4 r c ≠ cellOf bareStave r c ↔ (r, c) ∈ [(1, 7), (2, 6), (3, 5)])) ∧
      (∀ p ∈ [(1, 7), (2, 6), (3, 5)], cellOf s4 p.1 p.2 = some '╱') ∧
      (∀ r, r < 13 → ∀ c, c < 8 → 5 ≤ c →
        (cellOf s3 r c = some '╲' ↔ cellOf s4 r (12 - c) = some '╱')) :=
  ⟨_, _, render_3, render_4, by decide, by decide, by decide, by decide, by decide⟩

/-- C20: a digit outside the table is a silent no-op: for every integer `d`
outside 1..9 and every grid `g`, of any length, `getDigit(d, g)` returns without
a panic and leaves `g` as it is; it writes no cell. -/
theorem C20_out_of_table_digit_is_noop (d : Int) (g : List Char) (h : d < 1 ∨ 9 < d) :
    getDigit d g = .ok g ∧ writtenCells d = [] := by
  have hd : d ≤ 0 ∨ 10 ≤ d := by omega
  refine ⟨getDigit_default d g hd, ?_⟩
  simp only [writtenCells, getDigit_default d _ hd]
  decide

theorem C20_out_of_table_digit_is_noop_witness :
    ((10 : Int) < 1 ∨ (9 : Int) < 10) ∧
    (getDigit 10 ['a', 'b'] = .ok ['a', 'b'] ∧ writtenCells 10 = []) :=
  ⟨by decide, C20_out_of_table_digit_is_noop 10 ['a', 'b'] (by decide)⟩

/-- The ones digit is read back from the output of every single digit. -/
theorem readOnesDigit_render (d : Int) (h0 : 0 ≤ d) (h9 : d ≤ 9) (s : String)
    (hs : GenerateCistercianNumber d false = .ok (s, none)) : readOnesDigit s = d := by
  interval_cases d
  · rw [render_0] at hs
    obtain rfl := (Prod.mk.inj (Except.ok.inj hs)).1
    decide
  · rw [render_1] at hs
    obtain rfl := (Prod.mk.inj (Except.ok.inj hs)).1
    decide
  · rw [render_2] at hs
    obtain rfl := (Prod.mk.inj (Except.ok.inj hs)).1
    decide
  · rw [render_3] at hs
    obtain rfl := (Prod.mk.inj (Except.ok.inj hs)).1
    decide
  · rw [render_4] at hs
    obtain rfl := (Prod.mk.inj (Except.ok.inj hs)).1
    decide
  · rw [render_5] at hs
    obtain rfl := (Prod.mk.inj (Except.ok.inj hs)).1
    decide
  · rw [render_6] at hs
    obtain rfl := (Prod.mk.inj (Except.ok.inj hs)).1
    decide
  · rw [render_7] at hs
    obtain rfl := (Prod.mk.inj (Except.ok.inj hs)).1
    decide
  · rw [render_8] at hs
    obtain rfl := (Prod.mk.inj (Except.ok.inj hs)).1
    decide
  · rw [render_9] at hs
    obtain rfl := (Prod.mk.inj (Except.ok.inj hs)).1
    decide

/-- C19: the ten digit glyphs are pairwise distinct: for digits `a`, `b` in
0..9, if `GenerateCistercianNumber(a, false)` and
`GenerateCistercianNumber(b, false)` return the same string, then `a = b`; the
digit is read back from the string by `readOnesDigit`. -/
theorem C19_digit_glyphs_distinct (a b : Int) (ha0 : 0 ≤ a) (ha9 : a ≤ 9) (hb0 : 0 ≤ b)
    (hb9 : b ≤ 9) (sa sb : String) (hsa : GenerateCistercianNumber a false = .ok (sa, none))
    (hsb : GenerateCistercianNumber b false = .ok (sb, none)) (hab : sa = sb) :
    a = b ∧ readOnesDigit sa = a := by
  have ha := readOnesDigit_render a ha0 ha9 sa hsa
  have hb := readOnesDigit_render b hb0 hb9 sb hsb
  rw [← hab] at hb
  exact ⟨ha.symm.trans hb, ha⟩

theorem C19_digit_glyphs_distinct_witness :
    ((0 : Int) ≤ 0 ∧ (0 : Int) ≤ 9) ∧
    GenerateCistercianNumber 0 false = .ok (bareStave, none) ∧
    bareStave = bareStave ∧ ((0 : Int) = 0 ∧ readOnesDigit bareStave = 0) :=
  ⟨⟨by decide, by decide⟩, render_0, rfl,
    C19_digit_glyphs_distinct 0 0 (by decide) (by decide) (by decide) (by decide)
      bareStave bareStave render_0 render_0 rfl⟩

end Cistercian
